import Mathlib

/-!
Verification of the MoodFlow mood-tracker core (src/App.tsx): the data
model, the validator (validateNumber / sanitizeString / validateDate),
the entry-store upsert performed by handleSubmit, the chart window
last30Days, the drug aggregation drugAnalysis, and the localStorage
load path.  All definitions are shallow embeddings of the TypeScript
source; machine numbers are modelled as rationals and JS Date
timestamps as integers (milliseconds since the Unix epoch).
-/

/-- One user-submitted daily record (interface MoodEntry). Numeric fields
are modelled as rationals (JS numbers); `date` is the ISO `YYYY-MM-DD`
string from the date input. -/
structure MoodEntry where
  id : String
  date : String
  sleep : ℚ
  stress : ℚ
  symptoms : ℚ
  mood : ℚ
  engagement : ℚ
  drugNames : String
  notes : String
deriving DecidableEq, Repr

/-- The raw form fields (the formData state), all strings. -/
structure FormData where
  date : String
  sleep : String
  stress : String
  symptoms : String
  mood : String
  engagement : String
  drugNames : String
  notes : String
deriving DecidableEq, Repr

/-- `validateNumber(value, min, max)`: parseFloat then range check.
`parseFloat` is a JS builtin, abstracted as a parameter `pf` returning
`none` exactly when the parse yields NaN. -/
def validateNumber (pf : String → Option ℚ) (value : String) (lo hi : ℚ) : Option ℚ :=
  match pf value with
  | none => none
  | some num => if num < lo ∨ num > hi then none else some num

/-- The character class of the sanitizing regex `[<>\"'/;()&+]`. -/
def isBannedChar (c : Char) : Bool :=
  c = '<' ∨ c = '>' ∨ c = '"' ∨ c = '\'' ∨ c = '/' ∨ c = ';' ∨
    c = '(' ∨ c = ')' ∨ c = '&' ∨ c = '+'

/-- JS `String.prototype.trim` on the character list: drop whitespace
from both ends. -/
def jsTrim (l : List Char) : List Char :=
  ((l.dropWhile Char.isWhitespace).reverse.dropWhile Char.isWhitespace).reverse

/-- `sanitizeString(input)`: remove the banned characters, trim, then
truncate to 500 characters (`substring(0, 500)`), in that order. -/
def sanitizeString (input : String) : String :=
  String.mk ((jsTrim (input.data.filter (fun c => !isBannedChar c))).take 500)

/-- Days-from-civil-date conversion (proleptic Gregorian calendar), the
arithmetic underlying JS `Date`: day count of `(y, m, d)` relative to
1970-01-01.  Linear in `d`, so out-of-range day numbers normalize
exactly as the JS `Date` constructor does. -/
def daysFromCivil (y m d : Int) : Int :=
  let y2 := if m ≤ 2 then y - 1 else y
  let era := y2 / 400
  let yoe := y2 - era * 400
  let mp := (m + 9) % 12
  let doy := (153 * mp + 2) / 5 + d - 1
  let doe := yoe * 365 + yoe / 4 - yoe / 100 + doy
  era * 146097 + doe - 719468

/-- Inverse conversion: the civil date `(y, m, d)` of a day count. -/
def civilFromDays (z0 : Int) : Int × Int × Int :=
  let z := z0 + 719468
  let era := z / 146097
  let doe := z - era * 146097
  let yoe := (doe - doe / 1460 + doe / 36524 - doe / 146096) / 365
  let y2 := yoe + era * 400
  let doy := doe - (365 * yoe + yoe / 4 - yoe / 100)
  let mp := (5 * doy + 2) / 153
  let d := doy - (153 * mp + 2) / 5 + 1
  let m := if mp < 10 then mp + 3 else mp - 9
  (if m ≤ 2 then y2 + 1 else y2, m, d)

/-- Whether `y` is a leap year. -/
def isLeapYear (y : Int) : Bool :=
  y % 4 = 0 ∧ (y % 100 ≠ 0 ∨ y % 400 = 0)

/-- Number of days in month `m` of year `y`. -/
def daysInMonth (y m : Int) : Int :=
  if m = 2 then (if isLeapYear y then 29 else 28)
  else if m = 4 ∨ m = 6 ∨ m = 9 ∨ m = 11 then 30
  else 31

/-- Decimal digit value of a character, if it is a digit. -/
def digitVal (c : Char) : Option Int :=
  if c.isDigit then some ((c.toNat : Int) - 48) else none

/-- `new Date(s)` on a date-input string: an ISO `YYYY-MM-DD` string
parses to its civil date (as UTC midnight) iff it denotes a real
calendar date; anything else is Invalid Date (`none`). -/
def parseDateISO (s : String) : Option (Int × Int × Int) :=
  match s.data with
  | [y1, y2, y3, y4, h1, m1, m2, h2, d1, d2] =>
    match digitVal y1, digitVal y2, digitVal y3, digitVal y4,
        digitVal m1, digitVal m2, digitVal d1, digitVal d2 with
    | some a, some b, some c, some e, some f, some g, some h, some i =>
      if h1 = '-' ∧ h2 = '-' then
        let y := 1000 * a + 100 * b + 10 * c + e
        let m := 10 * f + g
        let d := 10 * h + i
        if 1 ≤ m ∧ m ≤ 12 ∧ 1 ≤ d ∧ d ≤ daysInMonth y m then some (y, m, d)
        else none
      else none
    | _, _, _, _, _, _, _, _ => none
  | _ => none

/-- The local civil date of the instant `nowMs` under a timezone at
`tzMin` minutes east of UTC: what `getFullYear/getMonth/getDate` of
`new Date()` observe. -/
def todayCivil (nowMs tzMin : Int) : Int × Int × Int :=
  civilFromDays ((nowMs + tzMin * 60000) / 86400000)

/-- Timestamp of `new Date(today.getFullYear() - 1, today.getMonth(),
today.getDate())`: local midnight of the calendar date one year before
today, converted to epoch milliseconds. -/
def oneYearAgoMs (nowMs tzMin : Int) : Int :=
  let t := todayCivil nowMs tzMin
  daysFromCivil (t.1 - 1) t.2.1 t.2.2 * 86400000 - tzMin * 60000

/-- `validateDate(dateString)`: the parsed UTC-midnight timestamp must
lie between the local-midnight one-year-ago timestamp and the current
instant.  `nowMs` is the clock (`new Date()`), `tzMin` the local
timezone offset in minutes east of UTC. -/
def validateDate (nowMs tzMin : Int) (dateString : String) : Bool :=
  match parseDateISO dateString with
  | none => false
  | some (y, m, d) =>
    let dateMs := daysFromCivil y m d * 86400000
    decide (oneYearAgoMs nowMs tzMin ≤ dateMs) && decide (dateMs ≤ nowMs)

/-- Modelled from the spec: "parses `s` as a calendar date; succeeds iff
it parses to a real date AND the date lies within `[today − 1 year,
today]` inclusive", read as a comparison of civil dates, `today` being
the current local calendar date. -/
def specValidateDate (nowMs tzMin : Int) (dateString : String) : Bool :=
  match parseDateISO dateString with
  | none => false
  | some (y, m, d) =>
    let t := todayCivil nowMs tzMin
    decide (daysFromCivil (t.1 - 1) t.2.1 t.2.2 ≤ daysFromCivil y m d) &&
      decide (daysFromCivil y m d ≤ (nowMs + tzMin * 60000) / 86400000)

/-- The error list built by `validateForm` (the `newErrors` object, as
an association list in insertion order).  Checks run in source order:
date, sleep, then stress/symptoms/mood/engagement, then notes; the
notes length check is on the raw, pre-sanitization string. -/
def validateForm (nowMs tzMin : Int) (pf : String → Option ℚ) (fd : FormData) :
    List (String × String) :=
  (if validateDate nowMs tzMin fd.date = false then
    [("date", "Please enter a valid date within the last year")] else []) ++
  (if validateNumber pf fd.sleep 0 24 = none then
    [("sleep", "Sleep must be between 0-24 hours")] else []) ++
  (if validateNumber pf fd.stress 1 10 = none then
    [("stress", "stress must be between 1-10")] else []) ++
  (if validateNumber pf fd.symptoms 1 10 = none then
    [("symptoms", "symptoms must be between 1-10")] else []) ++
  (if validateNumber pf fd.mood 1 10 = none then
    [("mood", "mood must be between 1-10")] else []) ++
  (if validateNumber pf fd.engagement 1 10 = none then
    [("engagement", "engagement must be between 1-10")] else []) ++
  (if fd.notes.length < 10 then
    [("notes", "Notes must be at least 10 characters")] else [])

/-- The `newEntry` object built in `handleSubmit`.  `pf` and `pi` model
the JS builtins `parseFloat` and `parseInt`; `idStr` is
`Date.now().toString()`. -/
def buildEntry (pf pi : String → Option ℚ) (idStr : String) (fd : FormData) : MoodEntry :=
  { id := idStr
    date := fd.date
    sleep := (pf fd.sleep).getD 0
    stress := (pi fd.stress).getD 0
    symptoms := (pi fd.symptoms).getD 0
    mood := (pi fd.mood).getD 0
    engagement := (pi fd.engagement).getD 0
    drugNames := sanitizeString fd.drugNames
    notes := sanitizeString fd.notes }

/-- The entry-store update in `handleSubmit`:
`[...prev.filter(e => e.date !== formData.date), newEntry]
   .sort((a, b) => b.date.localeCompare(a.date))` —
drop any entry with the new entry's date, append it, and re-sort the
whole collection by date descending (lexicographic on the strings). -/
def upsert (prev : List MoodEntry) (newEntry : MoodEntry) : List MoodEntry :=
  (prev.filter (fun e => e.date ≠ newEntry.date) ++ [newEntry]).mergeSort
    (fun a b => b.date ≤ a.date)

/-- `handleSubmit`: reject (leaving the collection unchanged) when the
error list is non-empty, otherwise upsert the built entry. -/
def handleSubmit (nowMs tzMin : Int) (pf pi : String → Option ℚ) (idStr : String)
    (fd : FormData) (prev : List MoodEntry) : List MoodEntry :=
  if validateForm nowMs tzMin pf fd = [] then upsert prev (buildEntry pf pi idStr fd)
  else prev

/-- The chart window: `entries.slice(-30).reverse()` — the last 30
elements of the stored array, reversed. -/
def last30Days (entries : List MoodEntry) : List MoodEntry :=
  (entries.drop (entries.length - 30)).reverse

/-- JS `s.split(',')` on character lists (adjacent separators yield
empty pieces, as in JS). -/
def splitCommaAux : List Char → List Char → List (List Char)
  | [], cur => [cur.reverse]
  | c :: rest, cur =>
    if c = ',' then cur.reverse :: splitCommaAux rest []
    else splitCommaAux rest (c :: cur)

/-- `entry.drugNames.split(',').map(d => d.trim().toLowerCase())
.filter(Boolean)`: the normalized drug tokens of one entry. -/
def tokenizeDrugs (s : String) : List String :=
  ((splitCommaAux s.data []).map
      (fun d => String.mk ((jsTrim d).map Char.toLower))).filter (fun d => d ≠ "")

/-- Per-drug accumulator record (`{ totalMood, count, avgMood }`). -/
structure DrugStat where
  totalMood : ℚ
  count : ℕ
  avgMood : ℚ
deriving DecidableEq, Repr

/-- One accumulation step: `totalMood += mood; count += 1;
avgMood = totalMood / count`. -/
def drugUpd (st : DrugStat) (mood : ℚ) : DrugStat :=
  let t := st.totalMood + mood
  let c := st.count + 1
  { totalMood := t, count := c, avgMood := t / (c : ℚ) }

/-- Updating the accumulator object for one drug token: create the
zeroed record if the key is absent, then accumulate.  The JS object is
modelled as an association list in key-insertion order. -/
def drugBump (acc : List (String × DrugStat)) (drug : String) (mood : ℚ) :
    List (String × DrugStat) :=
  if acc.any (fun p => p.1 = drug) then
    acc.map (fun p => if p.1 = drug then (p.1, drugUpd p.2 mood) else p)
  else acc ++ [(drug, drugUpd { totalMood := 0, count := 0, avgMood := 0 } mood)]

/-- The reducer body of `drugAnalysis`: entries whose `drugNames` is
blank after trimming are skipped; otherwise every token is accumulated
with the entry's mood. -/
def drugStep (acc : List (String × DrugStat)) (entry : MoodEntry) :
    List (String × DrugStat) :=
  if jsTrim entry.drugNames.data ≠ [] then
    (tokenizeDrugs entry.drugNames).foldl (fun a drug => drugBump a drug entry.mood) acc
  else acc

/-- `drugAnalysis`: reduce over the whole entry collection (not a
window), starting from the empty object. -/
def drugAnalysis (entries : List MoodEntry) : List (String × DrugStat) :=
  entries.foldl drugStep []

/-- The load-on-mount effect: `localStorage.getItem` yields the blob
(`none` when absent); `JSON.parse` is abstracted as `parse` (`none`
when it throws).  Result: the entry collection and whether the catch
branch logged an error (`console.error`); the initial state `[]` is
kept when nothing is loaded. -/
def load (blob : Option String) (parse : String → Option (List MoodEntry)) :
    List MoodEntry × Bool :=
  match blob with
  | none => ([], false)
  | some s =>
    match parse s with
    | some es => (es, false)
    | none => ([], true)

/-! ## Claim theorems -/

/-- C7: `sanitizeString` removes the banned characters, trims, then
truncates, so its result never exceeds 500 characters and never
contains any of the characters `< > " ' / ; ( ) & +`. -/
theorem sanitizeString_bounded_clean (s : String) :
    (sanitizeString s).length ≤ 500 ∧
    ∀ c ∈ (sanitizeString s).data, isBannedChar c = false := by
  constructor
  · show (List.take 500 _).length ≤ 500
    exact List.length_take_le _ _
  · intro c hc
    have hc1 : c ∈ jsTrim (s.data.filter (fun c => !isBannedChar c)) :=
      List.take_subset _ _ hc
    have hc2 : c ∈ s.data.filter (fun c => !isBannedChar c) := by
      unfold jsTrim at hc1
      have h1 := (List.mem_reverse).mp hc1
      have h2 := (List.dropWhile_sublist _).subset h1
      have h3 := (List.mem_reverse).mp h2
      exact (List.dropWhile_sublist _).subset h3
    have := List.of_mem_filter hc2
    simpa using this

/-- Witness for C7 on a concrete string containing banned characters. -/
theorem sanitizeString_bounded_clean_spot :
    (sanitizeString "  a<b>(hello)  ").length ≤ 500 ∧ isBannedChar 'h' = false :=
  ⟨(sanitizeString_bounded_clean "  a<b>(hello)  ").1,
   (sanitizeString_bounded_clean "  a<b>(hello)  ").2 'h' (by decide)⟩

/-- C9: on startup, an absent persisted blob gives the empty collection
with nothing logged, and a present but malformed blob (the abstracted
`JSON.parse` throws, i.e. returns `none`) gives the empty collection
with the error logged; `load` is a total function, so loading never
crashes and produces no user-facing error state. -/
theorem load_error_handling (parse : String → Option (List MoodEntry)) (s : String)
    (h : parse s = none) :
    load none parse = ([], false) ∧ load (some s) parse = ([], true) := by
  refine ⟨rfl, ?_⟩
  simp [load, h]

/-- Witness for C9 at a concrete malformed blob. -/
theorem load_error_handling_spot :
    load none (fun _ => none) = ([], false) ∧
    load (some "not json") (fun _ => none) = ([], true) :=
  load_error_handling (fun _ => none) "not json" rfl

/-- A store of 31 one-per-day entries, dates 2024-01-31 down to
2024-01-01, sorted descending as the store invariant requires. -/
def demoEntry (i : Nat) : MoodEntry :=
  { id := toString i
    date := "2024-01-" ++ (if i < 10 then "0" else "") ++ toString i
    sleep := 8, stress := 5, symptoms := 5, mood := 5, engagement := 5
    drugNames := "", notes := "a long enough note" }

def demoEntries : List MoodEntry := (List.range 31).map (fun k => demoEntry (31 - k))

/-- C1 (bug evaluation): on a descending-sorted store of 31 entries,
`entries.slice(-30).reverse()` is not the most recent 30 entries in
ascending order (`(take 30).reverse`); it is the *oldest* 30 entries in
ascending order (`(drop 1).reverse`), dropping the newest entry
2024-01-31 and keeping the oldest 2024-01-01 — contradicting the
claim and the code's own `last30Days` name and "Last 30 Days" label. -/
theorem last30Days_takes_oldest :
    ((demoEntries.map (fun e => e.date)).Pairwise (fun a b => b < a)) ∧
    last30Days demoEntries ≠ (demoEntries.take 30).reverse ∧
    last30Days demoEntries = (demoEntries.drop 1).reverse := by
  with_unfolding_all decide

/-- Example entry: mood 8, drugNames "caffeine". -/
def exCaf : MoodEntry :=
  { id := "1", date := "2024-01-01", sleep := 8, stress := 5, symptoms := 5,
    mood := 8, engagement := 5, drugNames := "caffeine", notes := "a caffeinated day" }

/-- Example entry: mood 4, drugNames "Caffeine, vitamin d". -/
def exCafVit : MoodEntry :=
  { id := "2", date := "2024-01-02", sleep := 8, stress := 5, symptoms := 5,
    mood := 4, engagement := 5, drugNames := "Caffeine, vitamin d",
    notes := "a mixed-case day" }

/-- Example entry: mood 5, the same drug mentioned twice in one list. -/
def exDup : MoodEntry :=
  { id := "3", date := "2024-01-03", sleep := 8, stress := 5, symptoms := 5,
    mood := 5, engagement := 5, drugNames := "caffeine, caffeine",
    notes := "a duplicated day" }

/-- C4: drug aggregation splits on commas, trims, lower-cases, drops
empty tokens, and accumulates count and totalMood with
avgMood = totalMood / count: on `[exCaf, exCafVit]` it maps
"caffeine" to count 2, avgMood 6 (case-insensitive merge of mood 8 and
mood 4) and "vitamin d" to count 1, avgMood 4; a drug mentioned twice
within one entry is counted twice. -/
theorem drugAnalysis_example :
    (drugAnalysis [exCaf, exCafVit]).lookup "caffeine" =
      some { totalMood := 12, count := 2, avgMood := 6 } ∧
    (drugAnalysis [exCaf, exCafVit]).lookup "vitamin d" =
      some { totalMood := 4, count := 1, avgMood := 4 } ∧
    (drugAnalysis [exDup]).lookup "caffeine" =
      some { totalMood := 10, count := 2, avgMood := 5 } := by
  with_unfolding_all decide

/-- The sort comparator `(a, b) => b.date.localeCompare(a.date)` is
transitive. -/
theorem dateDesc_trans (a b c : MoodEntry) :
    (decide (b.date ≤ a.date)) = true → (decide (c.date ≤ b.date)) = true →
    (decide (c.date ≤ a.date)) = true := by
  intro h1 h2
  exact decide_eq_true (le_trans (of_decide_eq_true h2) (of_decide_eq_true h1))

/-- The sort comparator is total. -/
theorem dateDesc_total (a b : MoodEntry) :
    ((decide (b.date ≤ a.date)) || (decide (a.date ≤ b.date))) = true := by
  rcases le_total b.date a.date with h | h
  · simp [h]
  · simp [h]

/-- C2: if the previous collection has pairwise-distinct dates (the
store invariant), then after an upsert the collection is sorted by date
strictly descending and still has at most one entry per date. -/
theorem upsert_sorted_strictDesc (prev : List MoodEntry) (ne : MoodEntry)
    (h : (prev.map (fun e => e.date)).Nodup) :
    (upsert prev ne).Pairwise (fun a b => b.date < a.date) ∧
    ((upsert prev ne).map (fun e => e.date)).Nodup := by
  have hperm : List.Perm (upsert prev ne) (prev.filter (fun e => e.date ≠ ne.date) ++ [ne]) :=
    List.mergeSort_perm _ _
  have hfil : ((prev.filter (fun e => e.date ≠ ne.date)).map (fun e => e.date)).Nodup := by
    have hsub : List.Sublist ((prev.filter (fun e => e.date ≠ ne.date)).map (fun e => e.date))
        (prev.map (fun e => e.date)) := (prev.filter_sublist).map _
    exact h.sublist hsub
  have hnotin : ne.date ∉ (prev.filter (fun e => e.date ≠ ne.date)).map (fun e => e.date) := by
    intro hmem
    rcases List.mem_map.mp hmem with ⟨e, he, heq⟩
    exact (of_decide_eq_true ((List.mem_filter.mp he).2)) heq
  have hpre : ((prev.filter (fun e => e.date ≠ ne.date) ++ [ne]).map (fun e => e.date)).Nodup := by
    rw [List.map_append]
    simp only [List.nodup_append, List.map_cons, List.map_nil]
    refine ⟨hfil, List.nodup_singleton _, ?_⟩
    intro x hx hx2
    simp only [List.mem_cons, List.not_mem_nil, or_false] at hx2
    exact hnotin (hx2 ▸ hx)
  have hnd2 : ((upsert prev ne).map (fun e => e.date)).Nodup :=
    ((hperm.map _).nodup_iff).mpr hpre
  have hle : (upsert prev ne).Pairwise (fun a b => (decide (b.date ≤ a.date)) = true) :=
    List.sorted_mergeSort dateDesc_trans dateDesc_total _
  have hne2 : (upsert prev ne).Pairwise (fun a b => a.date ≠ b.date) :=
    List.pairwise_map.mp hnd2
  refine ⟨(hle.and hne2).imp ?_, hnd2⟩
  intro a b hab
  exact lt_of_le_of_ne (of_decide_eq_true hab.1) (Ne.symm hab.2)

/-- Witness for C2 on a concrete two-entry store. -/
theorem upsert_sorted_strictDesc_spot :
    (upsert [exCafVit, exCaf] exDup).Pairwise (fun a b => b.date < a.date) ∧
    ((upsert [exCafVit, exCaf] exDup).map (fun e => e.date)).Nodup :=
  upsert_sorted_strictDesc [exCafVit, exCaf] exDup (by decide)

/-- If the dates of `l` are pairwise distinct and some entry of `l` has
date `d`, filtering out date `d` removes exactly one entry. -/
theorem length_filter_date {l : List MoodEntry} {d : String} (e0 : MoodEntry)
    (hnd : (l.map (fun e => e.date)).Nodup) (h0 : e0 ∈ l) (hd : e0.date = d) :
    (l.filter (fun e => e.date ≠ d)).length + 1 = l.length := by
  induction l with
  | nil => cases h0
  | cons a t ih =>
    rw [List.map_cons] at hnd
    rcases List.nodup_cons.mp hnd with ⟨hna, hnt⟩
    by_cases had : a.date = d
    · have hkeep : t.filter (fun e => e.date ≠ d) = t := by
        apply List.filter_eq_self.mpr
        intro e he
        apply decide_eq_true
        intro heq
        exact hna (had ▸ heq ▸ List.mem_map_of_mem (fun e => e.date) he)
      have hcond : (decide (a.date ≠ d)) = false := by simp [had]
      have hstep : (a :: t).filter (fun e => e.date ≠ d) = t.filter (fun e => e.date ≠ d) := by
        rw [List.filter_cons, hcond]
        rfl
      rw [hstep, hkeep]
      simp
    · have h0t : e0 ∈ t := by
        rcases List.mem_cons.mp h0 with heq | htl
        · exact absurd (heq ▸ hd) had
        · exact htl
      have hrec := ih hnt h0t
      have hcond : (decide (a.date ≠ d)) = true := decide_eq_true had
      have hstep : (a :: t).filter (fun e => e.date ≠ d) =
          a :: t.filter (fun e => e.date ≠ d) := by
        rw [List.filter_cons, hcond]
        rfl
      rw [hstep]
      simp only [List.length_cons]
      omega

/-- C3: upserting an entry whose date is already present replaces it:
the length is unchanged, every entry with a different date is retained
unchanged, any entry stored under the new date is exactly the new
entry, and the new entry is present. -/
theorem upsert_replaces (prev : List MoodEntry) (ne e0 : MoodEntry)
    (hnd : (prev.map (fun e => e.date)).Nodup) (h0 : e0 ∈ prev)
    (hd : e0.date = ne.date) :
    (upsert prev ne).length = prev.length ∧
    (∀ e ∈ prev, e.date ≠ ne.date → e ∈ upsert prev ne) ∧
    (∀ e ∈ upsert prev ne, e.date = ne.date → e = ne) ∧
    ne ∈ upsert prev ne := by
  refine ⟨?_, ?_, ?_, ?_⟩
  · have hlen : (upsert prev ne).length =
        (prev.filter (fun e => e.date ≠ ne.date) ++ [ne]).length :=
      (List.mergeSort_perm _ _).length_eq
    rw [hlen, List.length_append]
    have := length_filter_date e0 hnd h0 hd
    simp only [List.length_cons, List.length_nil]
    omega
  · intro e he hne2
    apply List.mem_mergeSort.mpr
    exact List.mem_append_left _ (List.mem_filter.mpr ⟨he, decide_eq_true hne2⟩)
  · intro e he heq
    rcases List.mem_append.mp (List.mem_mergeSort.mp he) with hf | hs
    · exact absurd heq (of_decide_eq_true ((List.mem_filter.mp hf).2))
    · simpa using hs
  · exact List.mem_mergeSort.mpr (List.mem_append_right _ (by simp))

/-- Example entry sharing the date 2024-01-02 with `exCafVit` but
holding different values. -/
def exRepl : MoodEntry :=
  { id := "4", date := "2024-01-02", sleep := 6, stress := 2, symptoms := 1,
    mood := 9, engagement := 7, drugNames := "", notes := "a replacement day" }

/-- Witness for C3: replacing the entry of 2024-01-02. -/
theorem upsert_replaces_spot :
    (upsert [exCafVit, exCaf] exRepl).length = 2 ∧
    (∀ e ∈ [exCafVit, exCaf], e.date ≠ exRepl.date → e ∈ upsert [exCafVit, exCaf] exRepl) ∧
    (∀ e ∈ upsert [exCafVit, exCaf] exRepl, e.date = exRepl.date → e = exRepl) ∧
    exRepl ∈ upsert [exCafVit, exCaf] exRepl :=
  upsert_replaces [exCafVit, exCaf] exRepl exCafVit (by decide) (by decide) (by decide)

/-- C10: upserting an entry with a fresh date grows the collection by
exactly one and keeps every previously stored entry (with all its
fields, since the very same entry remains a member). -/
theorem upsert_new_date (prev : List MoodEntry) (ne : MoodEntry)
    (h : ne.date ∉ prev.map (fun e => e.date)) :
    (upsert prev ne).length = prev.length + 1 ∧
    ∀ e ∈ prev, e ∈ upsert prev ne := by
  have hfe : prev.filter (fun e => e.date ≠ ne.date) = prev := by
    apply List.filter_eq_self.mpr
    intro e he
    apply decide_eq_true
    intro heq
    exact h (heq ▸ List.mem_map_of_mem (fun e => e.date) he)
  constructor
  · have hlen : (upsert prev ne).length =
        (prev.filter (fun e => e.date ≠ ne.date) ++ [ne]).length :=
      (List.mergeSort_perm _ _).length_eq
    rw [hlen, hfe]
    simp
  · intro e he
    apply List.mem_mergeSort.mpr
    rw [hfe]
    exact List.mem_append_left _ he

/-- Witness for C10: adding a fresh date 2024-01-03. -/
theorem upsert_new_date_spot :
    (upsert [exCafVit, exCaf] exDup).length = 3 ∧
    ∀ e ∈ [exCafVit, exCaf], e ∈ upsert [exCafVit, exCaf] exDup :=
  upsert_new_date [exCafVit, exCaf] exDup (by decide)

/-- Key membership in one optional error-map component. -/
theorem mem_keys_ite (k k2 msg : String) (c : Prop) [Decidable c] :
    (k ∈ (if c then [(k2, msg)] else []).map Prod.fst) ↔ c ∧ k = k2 := by
  split_ifs with h
  · simp [h]
  · simp [h]

/-- C5: validation is all-or-nothing per submission: each of the seven
fields is checked and appears in the error map exactly when its check
fails (so all failing fields are reported simultaneously), and if the
error map is non-empty the submission is rejected with the entry
collection left unchanged. -/
theorem validateForm_allOrNothing (nowMs tzMin : Int) (pf pi : String → Option ℚ)
    (idStr : String) (fd : FormData) (prev : List MoodEntry) :
    (("date" ∈ (validateForm nowMs tzMin pf fd).map Prod.fst) ↔
        validateDate nowMs tzMin fd.date = false) ∧
    (("sleep" ∈ (validateForm nowMs tzMin pf fd).map Prod.fst) ↔
        validateNumber pf fd.sleep 0 24 = none) ∧
    (("stress" ∈ (validateForm nowMs tzMin pf fd).map Prod.fst) ↔
        validateNumber pf fd.stress 1 10 = none) ∧
    (("symptoms" ∈ (validateForm nowMs tzMin pf fd).map Prod.fst) ↔
        validateNumber pf fd.symptoms 1 10 = none) ∧
    (("mood" ∈ (validateForm nowMs tzMin pf fd).map Prod.fst) ↔
        validateNumber pf fd.mood 1 10 = none) ∧
    (("engagement" ∈ (validateForm nowMs tzMin pf fd).map Prod.fst) ↔
        validateNumber pf fd.engagement 1 10 = none) ∧
    (("notes" ∈ (validateForm nowMs tzMin pf fd).map Prod.fst) ↔
        fd.notes.length < 10) ∧
    (validateForm nowMs tzMin pf fd ≠ [] →
        handleSubmit nowMs tzMin pf pi idStr fd prev = prev) := by
  refine ⟨?_, ?_, ?_, ?_, ?_, ?_, ?_, ?_⟩
  · simp [validateForm, List.map_append, List.mem_append, mem_keys_ite]
  · simp [validateForm, List.map_append, List.mem_append, mem_keys_ite]
  · simp [validateForm, List.map_append, List.mem_append, mem_keys_ite]
  · simp [validateForm, List.map_append, List.mem_append, mem_keys_ite]
  · simp [validateForm, List.map_append, List.mem_append, mem_keys_ite]
  · simp [validateForm, List.map_append, List.mem_append, mem_keys_ite]
  · simp [validateForm, List.map_append, List.mem_append, mem_keys_ite]
  · intro h
    rw [handleSubmit, if_neg h]

/-- A parse model for the numeric strings used in the witnesses. -/
def pfW : String → Option ℚ :=
  fun s => if s = "8" then some 8 else if s = "5" then some 5 else none

/-- A form whose fields are all empty: every check fails. -/
def fdEmpty : FormData :=
  { date := "", sleep := "", stress := "", symptoms := "", mood := "",
    engagement := "", drugNames := "", notes := "" }

/-- Witness for C5: on the all-empty form the notes error is reported
and submission leaves the (empty) collection unchanged. -/
theorem validateForm_allOrNothing_spot :
    ("notes" ∈ (validateForm 0 0 pfW fdEmpty).map Prod.fst) ∧
    handleSubmit 0 0 pfW pfW "1" fdEmpty [] = [] :=
  ⟨((validateForm_allOrNothing 0 0 pfW pfW "1" fdEmpty []).2.2.2.2.2.2.1).mpr (by decide),
   (validateForm_allOrNothing 0 0 pfW pfW "1" fdEmpty []).2.2.2.2.2.2.2 (by decide)⟩

/-- A clock reading 2026-10-10 18:40 UTC; in a UTC+5:30 timezone the
local calendar date is already 2026-10-11. -/
def nowTzCex : Int := daysFromCivil 2026 10 10 * 86400000 + 1120 * 60000

/-- C6 counterexample: (i) under timezone offset +330 min at
`nowTzCex`, today's own date "2026-10-11" is a real calendar date
inside [today − 1 year, today] (the spec reading holds) yet
`validateDate` rejects it, because the parsed UTC-midnight timestamp
exceeds the current instant; (ii) at a 2024-03-01 clock under UTC,
"2023-03-01" is accepted although it lies 366 days in the past, so the
window is one calendar year, not 365 days. -/
theorem validateDate_cex :
    validateDate nowTzCex 330 "2026-10-11" = false ∧
    specValidateDate nowTzCex 330 "2026-10-11" = true ∧
    validateDate (daysFromCivil 2024 3 1 * 86400000 + 43200000) 0 "2023-03-01" = true ∧
    daysFromCivil 2024 3 1 - daysFromCivil 2023 3 1 = 366 := by decide

/-- C6 amended: when the timezone offset is zero (UTC-consistent
comparison), `validateDate` agrees exactly with the spec reading —
true iff the string parses to a real calendar date lying within
[today − 1 calendar year, today] inclusive. -/
theorem validateDate_utc_eq_spec (nowMs : Int) (s : String) :
    validateDate nowMs 0 s = specValidateDate nowMs 0 s := by
  unfold validateDate specValidateDate
  cases hp : parseDateISO s with
  | none => rfl
  | some ymd =>
    obtain ⟨y, m, d⟩ := ymd
    simp only
    congr 1
    · rw [decide_eq_decide]
      unfold oneYearAgoMs
      simp only [mul_zero, zero_mul, sub_zero, add_zero]
      exact (mul_le_mul_right (by norm_num : (0 : Int) < 86400000))
    · rw [decide_eq_decide]
      simp only [mul_zero, zero_mul, add_zero]
      exact (Int.le_ediv_iff_mul_le (by norm_num : (0 : Int) < 86400000)).symm

/-- C8 amended: a submission that passes validation has *raw* notes of
length ≥ 10 (the check precedes sanitization); the stored entry's notes
are `sanitizeString` of the raw notes and may end up shorter than 10.
The accepted submission upserts the built entry. -/
theorem validated_notes_rawLength (nowMs tzMin : Int) (pf pi : String → Option ℚ)
    (idStr : String) (fd : FormData) (prev : List MoodEntry)
    (h : validateForm nowMs tzMin pf fd = []) :
    10 ≤ fd.notes.length ∧
    handleSubmit nowMs tzMin pf pi idStr fd prev = upsert prev (buildEntry pf pi idStr fd) ∧
    (buildEntry pf pi idStr fd).notes = sanitizeString fd.notes := by
  refine ⟨?_, ?_, rfl⟩
  · rcases Nat.lt_or_ge fd.notes.length 10 with hl | hg
    · exfalso
      rw [validateForm, if_pos hl] at h
      simp at h
    · exact hg
  · rw [handleSubmit, if_pos h]

/-- The timestamp of 2026-06-15 00:00 UTC, a clock at which the date
field "2026-06-15" passes `validateDate` under UTC. -/
def nowW : Int := daysFromCivil 2026 6 15 * 86400000

/-- A fully valid form: date "2026-06-15", sleep 8, the four 1–10
fields 5, and ten-character notes. -/
def fdGood : FormData :=
  { date := "2026-06-15", sleep := "8", stress := "5", symptoms := "5",
    mood := "5", engagement := "5", drugNames := "", notes := "abcdefghij" }

/-- Witness for the amended C8 at the concrete valid form. -/
theorem validated_notes_rawLength_spot :
    10 ≤ fdGood.notes.length ∧
    handleSubmit nowW 0 pfW pfW "1" fdGood [] = upsert [] (buildEntry pfW pfW "1" fdGood) ∧
    (buildEntry pfW pfW "1" fdGood).notes = sanitizeString fdGood.notes :=
  validated_notes_rawLength nowW 0 pfW pfW "1" fdGood [] (by with_unfolding_all decide)

/-- The same valid form, but the notes are ten disallowed characters:
long enough for the raw-length check, sanitized away entirely. -/
def fdMask : FormData :=
  { date := "2026-06-15", sleep := "8", stress := "5", symptoms := "5",
    mood := "5", engagement := "5", drugNames := "", notes := "((((((((((" }

/-- C8 counterexample: `fdMask` passes every check (its raw notes have
10 characters), yet the entry actually stored by the submission has
notes sanitized to the empty string — length 0 < 10, refuting "notes
length ≥ 10 after sanitization" for stored entries. -/
theorem validated_notes_sanitized_cex :
    validateForm nowW 0 pfW fdMask = [] ∧
    handleSubmit nowW 0 pfW pfW "1" fdMask [] = [buildEntry pfW pfW "1" fdMask] ∧
    (buildEntry pfW pfW "1" fdMask).notes = "" := by
  with_unfolding_all decide
